import Mathlib

/-!
Shallow embedding of the EnergyDrinkFinder repository.

The embedding translates the Next.js route handlers and the SQL schema into
pure Lean functions over an explicit database state:

* `scanPOST` embeds `POST /api/scan` (src/app/api/scan/route.ts),
* `nearbyStores` embeds the PostGIS query of `GET /api/stores/nearby`
  (src/app/api/stores/nearby/route.ts),
* `geocodeAddress` / `geocodeEndpoint` embed src/lib/geocode.ts and the
  geocode route handler,
* `autocompleteBasic` / `searchDrinks` embed the two autocomplete handlers,
* `insertDrink` / `updateDrink` embed the drinks POST/PUT handlers together
  with the Postgres UNIQUE (brand, flavor, size_ml) constraint declared in
  db/migrations/001_initial_schema.sql.

JavaScript numbers are modelled as `ℚ`, `undefined` fields as `Option`, and
JS truthiness (`!x`) is modelled explicitly: `0`, `""` and `undefined` are
falsy.  Geodesic distance (PostGIS `ST_Distance` on `geography`, in metres)
is an abstract parameter of the model, as the claims hold for any distance
function.  Timestamp columns are omitted: every claim about the inventory
excepts timestamps.
-/

/-- JS truthiness of an optional string field: `!x` is true exactly for
`undefined` and the empty string. -/
def truthyStr : Option String → Bool
  | none => false
  | some s => !(s == "")

/-- JS truthiness of an optional integer field: `!x` is true exactly for
`undefined` and `0`. -/
def truthyInt : Option Int → Bool
  | none => false
  | some n => !(n == 0)

/-- JS truthiness of an optional numeric field: `!x` is true exactly for
`undefined` and `0`. -/
def truthyRat : Option ℚ → Bool
  | none => false
  | some q => !(q == 0)

/-- Row of the `energy_drinks` table (db/migrations/001_initial_schema.sql,
barcode column added by 002_add_barcodes.sql). -/
structure EnergyDrink where
  id : Int
  brand : String
  flavor : String
  size_ml : Int
  caffeine_mg : Option Int
  barcode : Option String
  sugar_g : Option ℚ
  calories : Option Int
  description : Option String
  image_url : Option String
deriving DecidableEq

/-- Row of the `stores` table (columns selected by the route handlers). -/
structure Store where
  id : Int
  name : String
  address : String
  city : String
  state : String
  zip_code : String
  latitude : ℚ
  longitude : ℚ
deriving DecidableEq

/-- Row of the `store_inventory` table, without the `last_updated` timestamp
column (the claims except timestamps). -/
structure InventoryRow where
  id : Int
  store_id : Int
  drink_id : Int
  price : ℚ
  in_stock : Bool
deriving DecidableEq

/-- Database state: the three tables plus the serial counter feeding
`store_inventory.id`. -/
structure DB where
  drinks : List EnergyDrink
  stores : List Store
  inventory : List InventoryRow
  nextInvId : Int
deriving DecidableEq

/-- Request body of `POST /api/scan` (`ScanRequest` in src/types). -/
structure ScanRequest where
  barcode : Option String
  store_id : Option Int
  latitude : Option ℚ
  longitude : Option ℚ
  price : Option ℚ
  in_stock : Option Bool
deriving DecidableEq

/-- Success payload of `POST /api/scan` (`ScanResponse.data` in src/types). -/
structure ScanData where
  drink : EnergyDrink
  store : Store
  inventory : InventoryRow
  was_created : Bool
deriving DecidableEq

/-- Response of `POST /api/scan`: HTTP status, success flag and payload. -/
structure ScanResponse where
  status : Nat
  success : Bool
  data : Option ScanData
deriving DecidableEq

/-- Embeds the drink lookup `SELECT ... FROM energy_drinks WHERE barcode = $1
LIMIT 1` (scan/route.ts lines 53-58).  A NULL barcode never equals a string
parameter, hence the comparison with `some bc`. -/
def findDrinkByBarcode (db : DB) (bc : String) : Option EnergyDrink :=
  db.drinks.find? (fun d => d.barcode == some bc)

/-- Embeds the store lookup `SELECT ... FROM stores WHERE id = $1 LIMIT 1`
(scan/route.ts lines 78-83). -/
def findStoreById (db : DB) (sid : Int) : Option Store :=
  db.stores.find? (fun s => s.id == sid)

/-- Embeds `SELECT ... FROM stores ORDER BY location <-> $point LIMIT 1`
(scan/route.ts lines 99-109): the store with the minimal distance to the
query point, the earliest such row on ties.  `d` is the abstract geodesic
distance to the request coordinate, in metres. -/
def nearestStore (d : Store → ℚ) : List Store → Option Store
  | [] => none
  | s :: ss => some (ss.foldl (fun best t => if d t < d best then t else best) s)

/-- Conflict target of the upsert: `ON CONFLICT (store_id, drink_id)`. -/
def invKey (sid did : Int) (r : InventoryRow) : Bool :=
  r.store_id == sid && r.drink_id == did

/-- The `DO UPDATE SET price = EXCLUDED.price, in_stock = EXCLUDED.in_stock`
action applied to one row (scan/route.ts lines 140-143). -/
def invUpdate (sid did : Int) (p : ℚ) (i : Bool) (r : InventoryRow) : InventoryRow :=
  if invKey sid did r then { r with price := p, in_stock := i } else r

/-- Embeds the upsert `INSERT INTO store_inventory ... ON CONFLICT
(store_id, drink_id) DO UPDATE ... RETURNING ...` (scan/route.ts lines
136-145) against the UNIQUE (store_id, drink_id) constraint of
001_initial_schema.sql.  Returns the new database state, the row produced by
the RETURNING clause, and whether a new row was inserted. -/
def upsertInventory (db : DB) (sid did : Int) (p : ℚ) (i : Bool) :
    DB × InventoryRow × Bool :=
  match db.inventory.find? (invKey sid did) with
  | some r0 =>
    ({ db with inventory := db.inventory.map (invUpdate sid did p i) },
     { r0 with price := p, in_stock := i }, false)
  | none =>
    ({ db with
        inventory := db.inventory ++
          [{ id := db.nextInvId, store_id := sid, drink_id := did, price := p, in_stock := i }],
        nextInvId := db.nextInvId + 1 },
     { id := db.nextInvId, store_id := sid, drink_id := did, price := p, in_stock := i }, true)

/-- Models `const price = body.price || 0` (scan/route.ts line 132): JS `||`
replaces both `undefined` and `0` by the default `0`. -/
def effPrice (body : ScanRequest) : ℚ :=
  match body.price with
  | none => 0
  | some p => if p == 0 then 0 else p

/-- Models `const inStock = body.in_stock !== undefined ? body.in_stock :
true` (scan/route.ts line 133). -/
def effStock (body : ScanRequest) : Bool :=
  body.in_stock.getD true

/-- Store resolution of the scan handler (scan/route.ts lines 74-129):
`if (body.store_id)` selects the lookup by id, otherwise the nearest store
to the request coordinate is used. -/
def resolveStore (dist : ℚ → ℚ → Store → ℚ) (db : DB) (body : ScanRequest) :
    Option Store :=
  if truthyInt body.store_id then findStoreById db (body.store_id.getD 0)
  else nearestStore (dist (body.latitude.getD 0) (body.longitude.getD 0)) db.stores

/-- Embeds `POST /api/scan` (scan/route.ts lines 24-178).  `dist lat lon s`
is the abstract geodesic distance in metres from the request coordinate to
store `s`.  The `was_created` field is computed, as in line 150 of the
source, from the length of the rows returned by the RETURNING clause. -/
def scanPOST (dist : ℚ → ℚ → Store → ℚ) (db : DB) (body : ScanRequest) :
    ScanResponse × DB :=
  if !(truthyStr body.barcode) then (⟨400, false, none⟩, db)
  else if !(truthyInt body.store_id) &&
      (!(truthyRat body.latitude) || !(truthyRat body.longitude)) then
    (⟨400, false, none⟩, db)
  else
    match findDrinkByBarcode db (body.barcode.getD "") with
    | none => (⟨404, false, none⟩, db)
    | some drink =>
      match resolveStore dist db body with
      | none => (⟨404, false, none⟩, db)
      | some store =>
        (⟨200, true,
          some ⟨drink, store,
            (upsertInventory db store.id drink.id (effPrice body) (effStock body)).2.1,
            decide (0 < [(upsertInventory db store.id drink.id (effPrice body) (effStock body)).2.1].length)⟩⟩,
         (upsertInventory db store.id drink.id (effPrice body) (effStock body)).1)

/-- Distance function that is never consulted (store resolution by id). -/
def distZero : ℚ → ℚ → Store → ℚ := fun _ _ _ => 0

/-- Concrete store used in the concrete evaluations below. -/
def st1 : Store := ⟨1, "S1", "123 Main St", "New York", "NY", "10001", 40, -73⟩

/-- Concrete drink with barcode "b1" used in the concrete evaluations below. -/
def dr1 : EnergyDrink := ⟨1, "Red Bull", "Original", 250, some 80, some "b1", none, none, none, none⟩

/-- Database whose inventory already holds a row for the pair (store 1,
drink 1): the failing input of the `was_created` claim. -/
def dbC1 : DB := ⟨[dr1], [st1], [⟨1, 1, 1, 299/100, true⟩], 2⟩

/-- Scan request hitting the existing (store 1, drink 1) inventory row. -/
def reqC1 : ScanRequest := ⟨some "b1", some 1, none, none, some 3, some true⟩

/-- Empty database. -/
def dbEmpty : DB := ⟨[], [], [], 1⟩

/-- Scan request carrying a barcode and a complete coordinate pair whose
latitude is the (falsy) number 0. -/
def reqC4 : ScanRequest := ⟨some "b", none, some 0, some 10, none, none⟩

/-- Database with one store, one drink and an empty inventory. -/
def dbC6 : DB := ⟨[dr1], [st1], [], 1⟩

/-- Scan request supplying the (falsy) store id 0 together with coordinates. -/
def reqC6 : ScanRequest := ⟨some "b1", some 0, some 40, some (-73), none, none⟩

/-- Scan request with a barcode matching no drink. -/
def reqC6w : ScanRequest := ⟨some "nosuch", some 1, none, none, none, none⟩

/-- Scan request with a store id matching no store. -/
def reqC6w2 : ScanRequest := ⟨some "b1", some 9, none, none, none, none⟩

/-- Second concrete store. -/
def st2 : Store := ⟨2, "S2", "456 Oak Ave", "New York", "NY", "10018", 41, -74⟩

/-- Database with two stores for the nearest-store resolution. -/
def dbC7 : DB := ⟨[dr1], [st1, st2], [], 5⟩

/-- Scan request resolving the store by coordinates. -/
def reqC7 : ScanRequest := ⟨some "b1", none, some 40, some 10, none, none⟩

/-- Distance function placing store 1 at 5 km and every other store at 7 km
from any query point. -/
def dist7 : ℚ → ℚ → Store → ℚ := fun _ _ st => if st.id == 1 then 5000 else 7000

/-- Database with one store, one drink and an empty inventory. -/
def dbT : DB := ⟨[dr1], [st1], [], 1⟩

/-- Scan request that omits price and in_stock. -/
def reqT : ScanRequest := ⟨some "b1", some 1, none, none, none, none⟩

/-- The scan payload produced for `reqT` on `dbT`. -/
def datT : ScanData := ⟨dr1, st1, ⟨1, 1, 1, 0, true⟩, true⟩

/-- Response of `GET /api/stores/nearby`. -/
structure NearbyResponse where
  status : Nat
  success : Bool
  data : Option (List (Store × ℚ))
deriving DecidableEq

/-- Embeds the PostGIS query of the nearby-stores handler
(stores/nearby/route.ts lines 51-66): keep the stores whose geodesic
distance to the query point is within `radius * 1000` metres
(`ST_DWithin`), order them by that distance, return the first `lim`
(`LIMIT`), each paired with its `distance_km` column (`ST_Distance / 1000`).
`d` is the abstract geodesic distance to the query coordinate, in metres. -/
def nearbyStores (d : Store → ℚ) (stores : List Store) (radius : ℚ) (lim : Nat) :
    List (Store × ℚ) :=
  ((((stores.filter (fun s => decide (d s ≤ radius * 1000))).mergeSort
      (fun a b => decide (d a ≤ d b))).take lim).map (fun s => (s, d s / 1000)))

/-- Embeds `GET /api/stores/nearby` (stores/nearby/route.ts lines 30-99):
validation of the coordinates by JS truthiness, then the spatial query. -/
def nearbyGET (d : ℚ → ℚ → Store → ℚ) (stores : List Store) (lat lon : Option ℚ)
    (radius : ℚ) (lim : Nat) : NearbyResponse :=
  if !(truthyRat lat) || !(truthyRat lon) then ⟨400, false, none⟩
  else ⟨200, true, some (nearbyStores (d (lat.getD 0) (lon.getD 0)) stores radius lim)⟩

/-- Executable substring test on character lists: JS `hay.includes(needle)`. -/
def containsSub (needle : List Char) : List Char → Bool
  | [] => needle.isEmpty
  | a :: t => needle.isPrefixOf (a :: t) || containsSub needle t

/-- Lower-casing of a character list: JS `.toLowerCase()`. -/
def lowerChars (l : List Char) : List Char := l.map Char.toLower

/-- One candidate of the geocoding provider's response array, with its
numeric coordinates (the handler parses the `lat`/`lon` strings with
`parseFloat`; the embedding carries the denoted numbers directly). -/
structure GeoCandidate where
  lat : ℚ
  lon : ℚ
  display_name : String
deriving DecidableEq

/-- Result shape of `geocodeAddress` (src/lib/geocode.ts lines 6-11,
without the bounding box). -/
structure GeocodeResult where
  latitude : ℚ
  longitude : ℚ
  display_name : String
deriving DecidableEq

/-- Response of the geocode endpoint. -/
structure GeocodeResponse where
  status : Nat
  success : Bool
  data : Option GeocodeResult
deriving DecidableEq

/-- Embeds `geocodeAddress` (src/lib/geocode.ts lines 38-103) after a
successful fetch returning candidate list `data` for query `q`: an empty
list raises `No results found for address: ...`, which the surrounding
catch rewraps as `Geocoding failed: ...`; otherwise the first candidate is
returned. -/
def geocodeAddress (q : String) (data : List GeoCandidate) :
    Except String GeocodeResult :=
  match data with
  | [] => .error ("Geocoding failed: " ++ ("No results found for address: " ++ q))
  | c :: _ => .ok ⟨c.lat, c.lon, c.display_name⟩

/-- Models `errorMessage.toLowerCase().includes('no results found')`
(geocode route, src/unnamed/part_003 line 105). -/
def isNotFoundMsg (e : String) : Bool :=
  containsSub "no results found".data (lowerChars e.data)

/-- Embeds the geocode endpoint handler (src/unnamed/part_003 lines
53-116) on the already-validated path: 200 with the geocoding result on
success, otherwise 404 for a no-results error and 500 for any other. -/
def geocodeEndpoint (q : String) (cands : List GeoCandidate) : GeocodeResponse :=
  match geocodeAddress q cands with
  | .ok r => ⟨200, true, some r⟩
  | .error e => ⟨if isNotFoundMsg e then 404 else 500, false, none⟩

/-- Case-insensitive substring match: Prisma `contains` with
`mode: 'insensitive'`. -/
def ciContains (hay needle : String) : Bool :=
  containsSub (lowerChars needle.data) (lowerChars hay.data)

/-- JS `String.prototype.trim` on the character list. -/
def trimChars (l : List Char) : List Char :=
  ((l.dropWhile Char.isWhitespace).reverse.dropWhile Char.isWhitespace).reverse

/-- Splits a character list at whitespace characters; empty chunks arise
from consecutive whitespace and are filtered by `jsTrimWords`. -/
def wordsWs (l : List Char) : List (List Char) :=
  l.foldr
    (fun c acc =>
      if c.isWhitespace then [] :: acc
      else
        match acc with
        | [] => [[c]]
        | w :: ws => (c :: w) :: ws)
    []

/-- Models `query.trim().split(/\s+/)` (src/unnamed/part_003 line 358): on
the empty string JS split yields `[""]`, otherwise the whitespace-separated
words of the trimmed string. -/
def jsTrimWords (q : String) : List String :=
  if trimChars q.data = [] then [""]
  else ((wordsWs (trimChars q.data)).filter (fun w => !w.isEmpty)).map (fun w => String.mk w)

/-- Ordering used by `orderBy: { brand: 'asc' }`. -/
def brandLe (a b : EnergyDrink) : Bool := decide (a.brand ≤ b.brand)

/-- Ordering used by `orderBy: [{ brand: 'asc' }, { flavor: 'asc' }]`. -/
def brandFlavorLe (a b : EnergyDrink) : Bool :=
  if a.brand = b.brand then decide (a.flavor ≤ b.flavor) else decide (a.brand ≤ b.brand)

/-- Match predicate of the basic autocomplete handler (src/unnamed/part_003
lines 469-485): the query as case-insensitive substring of brand or
flavor. -/
def matchBasic (q : String) (d : EnergyDrink) : Bool :=
  ciContains d.brand q || ciContains d.flavor q

/-- Embeds the basic autocomplete `GET` handler (src/unnamed/part_003 lines
459-508): substring match over brand or flavor, at most 10 results, ordered
by brand ascending. -/
def autocompleteBasic (catalog : List EnergyDrink) (q : String) : List EnergyDrink :=
  if q.length < 1 then []
  else ((catalog.filter (matchBasic q)).mergeSort brandLe).take 10

/-- Match predicate of the word-splitting autocomplete handler
(src/unnamed/part_003 lines 357-421): a single word is looked for in brand
or flavor; for several words, the first word in brand together with the
remaining words in flavor, or the whole query in brand, or the whole query
in flavor. -/
def splitMatch (q : String) (d : EnergyDrink) : Bool :=
  match jsTrimWords q with
  | [w] => ciContains d.brand w || ciContains d.flavor w
  | w :: rest =>
    (ciContains d.brand w && ciContains d.flavor (String.intercalate " " rest))
      || ciContains d.brand q || ciContains d.flavor q
  | [] => false

/-- Embeds the word-splitting autocomplete `GET` handler (src/unnamed/
part_003 lines 348-453): at most 20 results, ordered by brand then
flavor ascending. -/
def searchDrinks (catalog : List EnergyDrink) (q : String) : List EnergyDrink :=
  if q.length < 1 then []
  else ((catalog.filter (splitMatch q)).mergeSort brandFlavorLe).take 20

/-- Drink whose brand holds the first query word and whose flavor holds the
second. -/
def dr8 : EnergyDrink := ⟨1, "Monster", "Ultra White", 473, none, none, none, none, none, none⟩

/-- One-drink catalog for the search counterexample. -/
def catalogC8 : List EnergyDrink := [dr8]

/-- The (brand, flavor, size_ml) triple of a catalog row. -/
def tripleOf (d : EnergyDrink) : String × String × Int := (d.brand, d.flavor, d.size_ml)

/-- No two catalog rows share their (brand, flavor, size_ml) triple. -/
def uniqueTriples (catalog : List EnergyDrink) : Prop :=
  (catalog.map tripleOf).Nodup

/-- Embeds an INSERT into `energy_drinks` (the drinks POST handler) under
the Postgres constraint `UNIQUE (brand, flavor, size_ml)` declared at
db/migrations/001_initial_schema.sql line 60: a row whose triple already
exists is rejected and the statement has no effect. -/
def insertDrink (catalog : List EnergyDrink) (d : EnergyDrink) :
    Except String (List EnergyDrink) :=
  if catalog.any (fun e => e.brand == d.brand && e.flavor == d.flavor && e.size_ml == d.size_ml)
  then .error "duplicate key value violates unique constraint"
  else .ok (catalog ++ [d])

/-- The per-row effect of the UPDATE issued by the drinks PUT handler:
the row with id `did` receives the new brand, flavor and size. -/
def drinkUpdate (did : Int) (nb nf : String) (ns : Int) (e : EnergyDrink) : EnergyDrink :=
  if e.id == did then { e with brand := nb, flavor := nf, size_ml := ns } else e

/-- Embeds an UPDATE of the row with id `did` in `energy_drinks` (the
drinks PUT handler) under the same UNIQUE (brand, flavor, size_ml)
constraint: if another row already carries the new triple the statement is
rejected and has no effect. -/
def updateDrink (catalog : List EnergyDrink) (did : Int) (nb nf : String) (ns : Int) :
    Except String (List EnergyDrink) :=
  if catalog.any (fun e => !(e.id == did) && e.brand == nb && e.flavor == nf && e.size_ml == ns)
  then .error "duplicate key value violates unique constraint"
  else .ok (catalog.map (drinkUpdate did nb nf ns))

/-- Second concrete drink. -/
def dr2 : EnergyDrink := ⟨2, "Monster", "Original", 473, some 160, some "b2", none, none, none, none⟩

/-- Two-row catalog with distinct ids and triples. -/
def catalog9 : List EnergyDrink := [dr1, dr2]

/-- A row duplicating the (brand, flavor, size_ml) triple of `dr1`. -/
def dupDrink : EnergyDrink := ⟨3, "Red Bull", "Original", 250, none, none, none, none, none, none⟩

/-- A row with a fresh (brand, flavor, size_ml) triple. -/
def freshDrink : EnergyDrink := ⟨3, "Celsius", "Sparkling Orange", 355, none, none, none, none, none, none⟩

theorem upsert_fst_drinks (db : DB) (s d : Int) (p : ℚ) (i : Bool) :
    ((upsertInventory db s d p i).1).drinks = db.drinks := by
  unfold upsertInventory
  split <;> rfl

theorem upsert_fst_stores (db : DB) (s d : Int) (p : ℚ) (i : Bool) :
    ((upsertInventory db s d p i).1).stores = db.stores := by
  unfold upsertInventory
  split <;> rfl

theorem invKey_invUpdate (s d : Int) (p : ℚ) (i : Bool) (r : InventoryRow) :
    invKey s d (invUpdate s d p i r) = invKey s d r := by
  unfold invUpdate
  split <;> rfl

theorem invUpdate_idem (s d : Int) (p : ℚ) (i : Bool) (r : InventoryRow) :
    invUpdate s d p i (invUpdate s d p i r) = invUpdate s d p i r := by
  unfold invUpdate
  by_cases h : invKey s d r = true
  · simp [h, invKey] at *
    simp [invKey, h]
  · simp [h]

theorem upsert_idem (db : DB) (s d : Int) (p : ℚ) (i : Bool) :
    (upsertInventory (upsertInventory db s d p i).1 s d p i).1
      = (upsertInventory db s d p i).1 := by
  unfold upsertInventory
  cases h : db.inventory.find? (invKey s d) with
  | some r0 =>
    simp only
    cases h2 : (db.inventory.map (invUpdate s d p i)).find? (invKey s d) with
    | none =>
      exfalso
      rw [List.find?_eq_none] at h2
      have hr0 : r0 ∈ db.inventory := List.mem_of_find?_eq_some h
      have hkey : invKey s d r0 = true := List.find?_some h
      have hmem : invUpdate s d p i r0 ∈ db.inventory.map (invUpdate s d p i) :=
        List.mem_map_of_mem _ hr0
      exact h2 _ hmem (by rw [invKey_invUpdate]; exact hkey)
    | some r1 =>
      simp only [DB.mk.injEq]
      refine ⟨trivial, trivial, ?_, trivial⟩
      rw [List.map_map]
      exact List.map_congr_left (fun r _ => invUpdate_idem s d p i r)
  | none =>
    simp only
    have hnr : invKey s d
        ({ id := db.nextInvId, store_id := s, drink_id := d, price := p, in_stock := i } : InventoryRow) = true := by
      simp [invKey]
    cases h2 : (db.inventory ++
        [({ id := db.nextInvId, store_id := s, drink_id := d, price := p, in_stock := i } : InventoryRow)]).find?
        (invKey s d) with
    | none =>
      exfalso
      rw [List.find?_eq_none] at h2
      exact h2 _ (by simp) hnr
    | some r1 =>
      simp only [DB.mk.injEq]
      refine ⟨trivial, trivial, ?_, trivial⟩
      rw [List.map_append]
      have h1 : db.inventory.map (invUpdate s d p i) = db.inventory := by
        rw [List.find?_eq_none] at h
        have : ∀ r ∈ db.inventory, invUpdate s d p i r = r := by
          intro r hr
          unfold invUpdate
          simp [h r hr]
        calc db.inventory.map (invUpdate s d p i) = db.inventory.map id :=
              List.map_congr_left (fun r hr => this r hr)
          _ = db.inventory := List.map_id _
      rw [h1]
      simp [invUpdate, hnr]

theorem findDrinkByBarcode_congr (db db' : DB) (bc : String)
    (h : db'.drinks = db.drinks) :
    findDrinkByBarcode db' bc = findDrinkByBarcode db bc := by
  unfold findDrinkByBarcode
  rw [h]

theorem resolveStore_congr (dist : ℚ → ℚ → Store → ℚ) (db db' : DB) (body : ScanRequest)
    (h : db'.stores = db.stores) :
    resolveStore dist db' body = resolveStore dist db body := by
  unfold resolveStore findStoreById
  rw [h]

theorem foldlMin_spec (d : Store → ℚ) (ss : List Store) (s : Store) :
    (ss.foldl (fun best t => if d t < d best then t else best) s = s
      ∨ ss.foldl (fun best t => if d t < d best then t else best) s ∈ ss)
    ∧ d (ss.foldl (fun best t => if d t < d best then t else best) s) ≤ d s
    ∧ ∀ t ∈ ss, d (ss.foldl (fun best t => if d t < d best then t else best) s) ≤ d t := by
  induction ss generalizing s with
  | nil => simp
  | cons a as ih =>
    simp only [List.foldl_cons]
    obtain ⟨hmem, hle, hall⟩ := ih (if d a < d s then a else s)
    have hles : d (if d a < d s then a else s) ≤ d s := by
      split
      · exact le_of_lt (by assumption)
      · exact le_refl _
    have hlea : d (if d a < d s then a else s) ≤ d a := by
      split
      · exact le_refl _
      · exact le_of_not_lt (by assumption)
    refine ⟨?_, le_trans hle hles, ?_⟩
    · rcases hmem with hmem | hmem
      · rw [hmem]
        split
        · exact Or.inr (List.mem_cons_self _ _)
        · exact Or.inl rfl
      · exact Or.inr (List.mem_cons_of_mem _ hmem)
    · intro t ht
      rcases List.mem_cons.mp ht with ht | ht
      · rw [ht]; exact le_trans hle hlea
      · exact hall t ht

theorem nearestStore_spec (d : Store → ℚ) (l : List Store) (hne : l ≠ []) :
    ∃ s, nearestStore d l = some s ∧ s ∈ l ∧ ∀ t ∈ l, d s ≤ d t := by
  cases l with
  | nil => exact absurd rfl hne
  | cons a as =>
    obtain ⟨hmem, hle, hall⟩ := foldlMin_spec d as a
    refine ⟨_, rfl, ?_, ?_⟩
    · rcases hmem with h | h
      · rw [h]; exact List.mem_cons_self _ _
      · exact List.mem_cons_of_mem _ h
    · intro t ht
      rcases List.mem_cons.mp ht with ht | ht
      · rw [ht]; exact hle
      · exact hall t ht

theorem upsert_ret_price (db : DB) (s d : Int) (p : ℚ) (i : Bool) :
    ((upsertInventory db s d p i).2.1).price = p
    ∧ ((upsertInventory db s d p i).2.1).in_stock = i := by
  unfold upsertInventory
  split <;> simp

theorem effPrice_eq_getD (body : ScanRequest) : effPrice body = body.price.getD 0 := by
  unfold effPrice
  cases h : body.price with
  | none => rfl
  | some p =>
    simp only [Option.getD_some]
    split
    · next h2 => exact (eq_of_beq h2).symm
    · rfl

theorem upsert_ret_mem (db : DB) (s d : Int) (p : ℚ) (i : Bool) :
    (upsertInventory db s d p i).2.1 ∈ ((upsertInventory db s d p i).1).inventory := by
  unfold upsertInventory
  cases h : db.inventory.find? (invKey s d) with
  | some r0 =>
    simp only
    have hr0 : r0 ∈ db.inventory := List.mem_of_find?_eq_some h
    have hkey : invKey s d r0 = true := List.find?_some h
    exact List.mem_map.mpr ⟨r0, hr0, by simp [invUpdate, hkey]⟩
  | none => simp

/-- C1: the scan handler computes `was_created` as `inventoryResult.length
> 0` (scan/route.ts line 150), which is true even when the upsert updated
an existing inventory row: on database `dbC1`, whose inventory already
holds a row for (store 1, drink 1), the scan request `reqC1` for that same
pair reports `was_created = true` although the upsert took the update
branch and inserted no row. -/
theorem scan_was_created_on_update :
    (scanPOST distZero dbC1 reqC1).1.data.map ScanData.was_created = some true
    ∧ (upsertInventory dbC1 1 1 (effPrice reqC1) (effStock reqC1)).2.2 = false
    ∧ (scanPOST distZero dbC1 reqC1).2.inventory.length = dbC1.inventory.length := by
  decide

/-- C2: processing the same scan request twice in a row leaves the database
(in particular the inventory table) in exactly the state produced by
processing it once; timestamps are not modelled. -/
theorem scan_idempotent (dist : ℚ → ℚ → Store → ℚ) (db : DB) (body : ScanRequest) :
    (scanPOST dist (scanPOST dist db body).2 body).2 = (scanPOST dist db body).2 := by
  cases hb : truthyStr body.barcode with
  | false =>
    have h1 : scanPOST dist db body = (⟨400, false, none⟩, db) := by
      simp [scanPOST, hb]
    rw [h1]
    show (scanPOST dist db body).2 = db
    rw [h1]
  | true =>
    cases hv : (!(truthyInt body.store_id) &&
        (!(truthyRat body.latitude) || !(truthyRat body.longitude))) with
    | true =>
      have h1 : scanPOST dist db body = (⟨400, false, none⟩, db) := by
        simp only [scanPOST, hb, Bool.not_true, Bool.false_eq_true, if_false, hv, if_true]
      rw [h1]
      show (scanPOST dist db body).2 = db
      rw [h1]
    | false =>
      cases hd : findDrinkByBarcode db (body.barcode.getD "") with
      | none =>
        have h1 : scanPOST dist db body = (⟨404, false, none⟩, db) := by
          simp only [scanPOST, hb, Bool.not_true, Bool.false_eq_true, if_false, hv, hd]
        rw [h1]
        show (scanPOST dist db body).2 = db
        rw [h1]
      | some drink =>
        cases hs : resolveStore dist db body with
        | none =>
          have h1 : scanPOST dist db body = (⟨404, false, none⟩, db) := by
            simp only [scanPOST, hb, Bool.not_true, Bool.false_eq_true, if_false, hv, hd, hs]
          rw [h1]
          show (scanPOST dist db body).2 = db
          rw [h1]
        | some store =>
          have h1 : (scanPOST dist db body).2 =
              (upsertInventory db store.id drink.id (effPrice body) (effStock body)).1 := by
            simp only [scanPOST, hb, Bool.not_true, Bool.false_eq_true, if_false, hv, hd, hs]
          rw [h1]
          have hd2 : findDrinkByBarcode
              (upsertInventory db store.id drink.id (effPrice body) (effStock body)).1
              (body.barcode.getD "") = some drink := by
            rw [findDrinkByBarcode_congr db _ _ (upsert_fst_drinks _ _ _ _ _)]
            exact hd
          have hs2 : resolveStore dist
              (upsertInventory db store.id drink.id (effPrice body) (effStock body)).1 body
              = some store := by
            rw [resolveStore_congr dist db _ body (upsert_fst_stores _ _ _ _ _)]
            exact hs
          simp only [scanPOST, hb, Bool.not_true, Bool.false_eq_true, if_false, hv, hd2, hs2]
          exact upsert_idem db store.id drink.id (effPrice body) (effStock body)

/-- C4 counterexample: the request `reqC4` carries a barcode together with
a complete coordinate pair (latitude 0, longitude 10) and therefore, by the
claim, should pass validation; yet the handler's JS truthiness test
`!body.latitude` treats latitude 0 as missing and returns 400, so the
claimed equivalence fails at this input. -/
theorem scan_validation_claim_false :
    ¬ (((scanPOST distZero dbEmpty reqC4).1.status = 400
          ∧ (scanPOST distZero dbEmpty reqC4).1.success = false)
        ↔ (reqC4.barcode = none
          ∨ (reqC4.store_id = none
            ∧ ¬(reqC4.latitude ≠ none ∧ reqC4.longitude ≠ none)))) := by
  decide

/-- C4 (amended): the scan handler returns 400 with success=false exactly
when the barcode is absent or empty, or the store id is absent or zero and
at least one of latitude and longitude is absent or zero — the JS-truthiness
reading of lines 29-50 of scan/route.ts. -/
theorem scan_validation_truthy_iff (dist : ℚ → ℚ → Store → ℚ) (db : DB) (body : ScanRequest) :
    ((scanPOST dist db body).1.status = 400 ∧ (scanPOST dist db body).1.success = false)
      ↔ (truthyStr body.barcode = false
        ∨ (truthyInt body.store_id = false
          ∧ (truthyRat body.latitude = false ∨ truthyRat body.longitude = false))) := by
  cases hb : truthyStr body.barcode with
  | false =>
    have h1 : scanPOST dist db body = (⟨400, false, none⟩, db) := by
      simp [scanPOST, hb]
    simp [h1]
  | true =>
    cases hv : (!(truthyInt body.store_id) &&
        (!(truthyRat body.latitude) || !(truthyRat body.longitude))) with
    | true =>
      have h1 : scanPOST dist db body = (⟨400, false, none⟩, db) := by
        simp only [scanPOST, hb, Bool.not_true, Bool.false_eq_true, if_false, hv, if_true]
      simp only [h1]
      simp only [Bool.and_eq_true, Bool.or_eq_true, Bool.not_eq_true'] at hv
      simp [hb, hv]
    | false =>
      have hstat : (scanPOST dist db body).1.status = 404 ∨ (scanPOST dist db body).1.status = 200 := by
        cases hd : findDrinkByBarcode db (body.barcode.getD "") with
        | none =>
          left
          simp only [scanPOST, hb, Bool.not_true, Bool.false_eq_true, if_false, hv, hd]
        | some drink =>
          cases hs : resolveStore dist db body with
          | none =>
            left
            simp only [scanPOST, hb, Bool.not_true, Bool.false_eq_true, if_false, hv, hd, hs]
          | some store =>
            right
            simp only [scanPOST, hb, Bool.not_true, Bool.false_eq_true, if_false, hv, hd, hs]
      constructor
      · intro h
        rcases hstat with hstat | hstat <;> rw [hstat] at h <;> simp at h
      · intro h
        rcases h with h | ⟨h1', h2'⟩
        · simp at h
        · rcases h2' with h2' | h2' <;> simp [h1', h2'] at hv

/-- C6 counterexample: the request `reqC6` supplies store id 0, which
matches no store row of `dbC6`; by the claim the handler should answer 404
and write nothing.  Instead `if (body.store_id)` treats the falsy id 0 as
absent, resolves the nearest store from the supplied coordinates, answers
200 and writes an inventory row. -/
theorem scan_storeZero_claim_false :
    reqC6.store_id = some 0
    ∧ findStoreById dbC6 0 = none
    ∧ (scanPOST distZero dbC6 reqC6).1.status = 200
    ∧ (scanPOST distZero dbC6 reqC6).2.inventory ≠ dbC6.inventory := by
  decide

/-- C6 (amended): for every validated scan request, the handler answers 404
with success=false and leaves the database untouched when the barcode
matches no product row, and likewise when a supplied truthy (nonzero)
store id matches no store row. -/
theorem scan_notFound_404 (dist : ℚ → ℚ → Store → ℚ) (db : DB) (body : ScanRequest)
    (hb : truthyStr body.barcode = true)
    (hv : (truthyInt body.store_id || (truthyRat body.latitude && truthyRat body.longitude)) = true) :
    (findDrinkByBarcode db (body.barcode.getD "") = none →
      (scanPOST dist db body).1 = ⟨404, false, none⟩ ∧ (scanPOST dist db body).2 = db)
    ∧ (truthyInt body.store_id = true →
      findStoreById db (body.store_id.getD 0) = none →
      (scanPOST dist db body).1 = ⟨404, false, none⟩ ∧ (scanPOST dist db body).2 = db) := by
  have hv' : (!(truthyInt body.store_id) &&
      (!(truthyRat body.latitude) || !(truthyRat body.longitude))) = false := by
    cases h1 : truthyInt body.store_id <;> cases h2 : truthyRat body.latitude <;>
      cases h3 : truthyRat body.longitude <;> simp [h1, h2, h3] at hv ⊢
  constructor
  · intro hd
    constructor <;>
      simp only [scanPOST, hb, Bool.not_true, Bool.false_eq_true, if_false, hv', hd]
  · intro hti hsf
    cases hd : findDrinkByBarcode db (body.barcode.getD "") with
    | none =>
      constructor <;>
        simp only [scanPOST, hb, Bool.not_true, Bool.false_eq_true, if_false, hv', hd]
    | some drink =>
      have hs : resolveStore dist db body = none := by
        simp [resolveStore, hti, hsf]
      constructor <;>
        simp only [scanPOST, hb, Bool.not_true, Bool.false_eq_true, if_false, hv', hd, hs]

/-- C6 witness: on `dbC6`, the unknown barcode of `reqC6w` yields 404, and
the unknown (truthy) store id 9 of `reqC6w2` leaves the database
unchanged. -/
theorem scan_notFound_404_witness :
    (scanPOST distZero dbC6 reqC6w).1 = ⟨404, false, none⟩
    ∧ (scanPOST distZero dbC6 reqC6w2).2 = dbC6 :=
  ⟨((scan_notFound_404 distZero dbC6 reqC6w (by decide) (by decide)).1 (by decide)).1,
   ((scan_notFound_404 distZero dbC6 reqC6w2 (by decide) (by decide)).2 (by decide) (by decide)).2⟩

/-- C7: a validated scan request carrying coordinates and no truthy store
id resolves the store of minimal distance among all stores, succeeds with
status 200 and performs the upsert against that store; no bound on the
distance is assumed, so the behaviour is the same when the nearest store is
more than 1 km away (the source merely logs a console warning). -/
theorem scan_coordinate_nearest (dist : ℚ → ℚ → Store → ℚ) (db : DB) (body : ScanRequest)
    (drink : EnergyDrink)
    (hb : truthyStr body.barcode = true)
    (hsid : truthyInt body.store_id = false)
    (hlat : truthyRat body.latitude = true)
    (hlon : truthyRat body.longitude = true)
    (hdrink : findDrinkByBarcode db (body.barcode.getD "") = some drink)
    (hne : db.stores ≠ []) :
    ∃ s, resolveStore dist db body = some s
      ∧ s ∈ db.stores
      ∧ (∀ t ∈ db.stores, dist (body.latitude.getD 0) (body.longitude.getD 0) s
          ≤ dist (body.latitude.getD 0) (body.longitude.getD 0) t)
      ∧ (scanPOST dist db body).1.status = 200
      ∧ (scanPOST dist db body).1.success = true
      ∧ (scanPOST dist db body).1.data.map ScanData.store = some s
      ∧ (scanPOST dist db body).2 =
          (upsertInventory db s.id drink.id (effPrice body) (effStock body)).1 := by
  have hv' : (!(truthyInt body.store_id) &&
      (!(truthyRat body.latitude) || !(truthyRat body.longitude))) = false := by
    simp [hsid, hlat, hlon]
  obtain ⟨s, hsmin⟩ := nearestStore_spec
    (dist (body.latitude.getD 0) (body.longitude.getD 0)) db.stores hne
  have hs : resolveStore dist db body = some s := by
    simp only [resolveStore, hsid, Bool.false_eq_true, if_false]
    exact hsmin.1
  refine ⟨s, hs, hsmin.2.1, hsmin.2.2, ?_, ?_, ?_, ?_⟩ <;>
    simp [scanPOST, hb, hv', hdrink, hs]

/-- C7 witness: with the concrete distance function `dist7` the nearest
store `st1` lies 5000 m (more than 1 km) from the query point, and the
scan still succeeds with the nearest store. -/
theorem scan_coordinate_nearest_witness :
    (1000 : ℚ) < dist7 (reqC7.latitude.getD 0) (reqC7.longitude.getD 0) st1
    ∧ ∃ s, resolveStore dist7 dbC7 reqC7 = some s
      ∧ s ∈ dbC7.stores
      ∧ (∀ t ∈ dbC7.stores, dist7 (reqC7.latitude.getD 0) (reqC7.longitude.getD 0) s
          ≤ dist7 (reqC7.latitude.getD 0) (reqC7.longitude.getD 0) t)
      ∧ (scanPOST dist7 dbC7 reqC7).1.status = 200
      ∧ (scanPOST dist7 dbC7 reqC7).1.success = true
      ∧ (scanPOST dist7 dbC7 reqC7).1.data.map ScanData.store = some s
      ∧ (scanPOST dist7 dbC7 reqC7).2 =
          (upsertInventory dbC7 s.id dr1.id (effPrice reqC7) (effStock reqC7)).1 :=
  ⟨by decide,
   scan_coordinate_nearest dist7 dbC7 reqC7 dr1 (by decide) (by decide) (by decide)
     (by decide) (by decide) (by decide)⟩

/-- C10: every successful scan writes the inventory row with price
`body.price || 0` (0 when the price is omitted, the supplied value
otherwise, a supplied 0 being indistinguishable from an omitted price) and
with `in_stock` defaulting to true when omitted; the row reported in the
response is the row stored in the database. -/
theorem scan_price_stock_defaults (dist : ℚ → ℚ → Store → ℚ) (db : DB) (body : ScanRequest)
    (h200 : (scanPOST dist db body).1.status = 200) :
    ∀ dat, (scanPOST dist db body).1.data = some dat →
      dat.inventory.price = body.price.getD 0
      ∧ dat.inventory.in_stock = body.in_stock.getD true
      ∧ dat.inventory ∈ ((scanPOST dist db body).2).inventory := by
  cases hb : truthyStr body.barcode with
  | false =>
    have h1 : scanPOST dist db body = (⟨400, false, none⟩, db) := by
      simp [scanPOST, hb]
    rw [h1] at h200
    simp at h200
  | true =>
    cases hv : (!(truthyInt body.store_id) &&
        (!(truthyRat body.latitude) || !(truthyRat body.longitude))) with
    | true =>
      have h1 : scanPOST dist db body = (⟨400, false, none⟩, db) := by
        simp only [scanPOST, hb, Bool.not_true, Bool.false_eq_true, if_false, hv, if_true]
      rw [h1] at h200
      simp at h200
    | false =>
      cases hd : findDrinkByBarcode db (body.barcode.getD "") with
      | none =>
        have h1 : scanPOST dist db body = (⟨404, false, none⟩, db) := by
          simp only [scanPOST, hb, Bool.not_true, Bool.false_eq_true, if_false, hv, hd]
        rw [h1] at h200
        simp at h200
      | some drink =>
        cases hs : resolveStore dist db body with
        | none =>
          have h1 : scanPOST dist db body = (⟨404, false, none⟩, db) := by
            simp only [scanPOST, hb, Bool.not_true, Bool.false_eq_true, if_false, hv, hd, hs]
          rw [h1] at h200
          simp at h200
        | some store =>
          have h1 : scanPOST dist db body =
              (⟨200, true,
                some ⟨drink, store,
                  (upsertInventory db store.id drink.id (effPrice body) (effStock body)).2.1,
                  decide (0 < [(upsertInventory db store.id drink.id (effPrice body) (effStock body)).2.1].length)⟩⟩,
               (upsertInventory db store.id drink.id (effPrice body) (effStock body)).1) := by
            simp only [scanPOST, hb, Bool.not_true, Bool.false_eq_true, if_false, hv, hd, hs]
          intro dat hdat
          rw [h1] at hdat
          simp only [Option.some.injEq] at hdat
          rw [h1]
          subst hdat
          exact ⟨((upsert_ret_price db store.id drink.id (effPrice body) (effStock body)).1).trans
              (effPrice_eq_getD body),
            (upsert_ret_price db store.id drink.id (effPrice body) (effStock body)).2,
            upsert_ret_mem db store.id drink.id (effPrice body) (effStock body)⟩

/-- C10 witness: scanning `reqT` (price and in_stock omitted) on `dbT`
stores the row with price 0 and in_stock true. -/
theorem scan_price_stock_defaults_witness :
    datT.inventory.price = reqT.price.getD 0
    ∧ datT.inventory.in_stock = reqT.in_stock.getD true
    ∧ datT.inventory ∈ ((scanPOST distZero dbT reqT).2).inventory :=
  scan_price_stock_defaults distZero dbT reqT (by decide) datT (by decide)

theorem isPrefixOf_append_right (n l m : List Char) (h : n.isPrefixOf l = true) :
    n.isPrefixOf (l ++ m) = true := by
  induction n generalizing l with
  | nil => simp [List.isPrefixOf]
  | cons a as ih =>
    cases l with
    | nil => simp [List.isPrefixOf] at h
    | cons b bs =>
      simp only [List.cons_append, List.isPrefixOf, Bool.and_eq_true] at h ⊢
      exact ⟨h.1, ih bs h.2⟩

theorem containsSub_append_right (n l m : List Char) (h : containsSub n l = true) :
    containsSub n (l ++ m) = true := by
  induction l with
  | nil =>
    simp only [containsSub, List.isEmpty_iff] at h
    subst h
    cases m with
    | nil => simp [containsSub]
    | cons a t => simp [containsSub, List.isPrefixOf]
  | cons a t ih =>
    simp only [List.cons_append, containsSub, Bool.or_eq_true] at h ⊢
    rcases h with h | h
    · exact Or.inl (isPrefixOf_append_right _ _ _ h)
    · exact Or.inr (ih h)

/-- C5: when the provider returns zero candidates the geocode endpoint
answers 404 with success=false (the raised no-results error message always
passes the handler's lower-cased includes test); when the provider returns
a non-empty candidate list the endpoint answers 200 carrying the first
candidate's latitude, longitude and display name. -/
theorem geocode_zero_and_first (q : String) (c : GeoCandidate) (cs : List GeoCandidate) :
    geocodeEndpoint q [] = ⟨404, false, none⟩
    ∧ geocodeEndpoint q (c :: cs) = ⟨200, true, some ⟨c.lat, c.lon, c.display_name⟩⟩ := by
  constructor
  · have hmsg : isNotFoundMsg ("Geocoding failed: " ++ ("No results found for address: " ++ q)) = true := by
      unfold isNotFoundMsg lowerChars
      rw [String.data_append, String.data_append, ← List.append_assoc, List.map_append]
      apply containsSub_append_right
      decide
    unfold geocodeEndpoint geocodeAddress
    simp [hmsg]
  · rfl

/-- C3: the nearby-stores query keeps only stores whose distance_km column
is within the requested radius, returns them sorted by ascending
distance_km, and returns at most `lim` of them; this holds for every
distance function, every store table, every radius and every limit. -/
theorem nearby_radius_sorted_limit (d : Store → ℚ) (stores : List Store) (radius : ℚ)
    (lim : Nat) :
    (nearbyStores d stores radius lim).all (fun p => decide (p.2 ≤ radius)) = true
    ∧ (nearbyStores d stores radius lim).Pairwise (fun a b => a.2 ≤ b.2)
    ∧ (nearbyStores d stores radius lim).length ≤ lim := by
  refine ⟨?_, ?_, ?_⟩
  · rw [List.all_eq_true]
    intro p hp
    unfold nearbyStores at hp
    obtain ⟨s, hs, rfl⟩ := List.mem_map.mp hp
    have hs2 : s ∈ (stores.filter (fun s => decide (d s ≤ radius * 1000))).mergeSort
        (fun a b => decide (d a ≤ d b)) := (List.take_sublist _ _).subset hs
    have hs3 := List.mem_mergeSort.mp hs2
    have hle : d s ≤ radius * 1000 := by
      have := (List.mem_filter.mp hs3).2
      simpa using this
    simp only [decide_eq_true_eq]
    linarith
  · unfold nearbyStores
    have htrans : ∀ a b c : Store, (fun a b => decide (d a ≤ d b)) a b = true →
        (fun a b => decide (d a ≤ d b)) b c = true → (fun a b => decide (d a ≤ d b)) a c = true := by
      intro a b c hab hbc
      simp only [decide_eq_true_eq] at hab hbc ⊢
      exact le_trans hab hbc
    have htotal : ∀ a b : Store,
        ((fun a b => decide (d a ≤ d b)) a b || (fun a b => decide (d a ≤ d b)) b a) = true := by
      intro a b
      simp only [Bool.or_eq_true, decide_eq_true_eq]
      exact le_total (d a) (d b)
    have hsorted := List.sorted_mergeSort htrans htotal
      (stores.filter (fun s => decide (d s ≤ radius * 1000)))
    have htake := hsorted.sublist (List.take_sublist lim _)
    rw [List.pairwise_map]
    refine htake.imp ?_
    intro a b hab
    simp only [decide_eq_true_eq] at hab
    have h1000 : (0 : ℚ) < 1000 := by norm_num
    exact (div_le_div_iff_of_pos_right h1000).mpr hab
  · unfold nearbyStores
    rw [List.length_map]
    exact List.length_take_le _ _

/-- C8 counterexample: on the one-drink catalog `catalogC8` the query
"Monster Ultra" returns `dr8` through the word-splitting branch (first word
in brand, second in flavor), although the full query is a case-insensitive
substring of neither its brand nor its flavor, contradicting the claimed
match condition. -/
theorem search_substring_claim_false :
    searchDrinks catalogC8 "Monster Ultra" = [dr8]
    ∧ ciContains dr8.brand "Monster Ultra" = false
    ∧ ciContains dr8.flavor "Monster Ultra" = false := by
  refine ⟨?_, by decide, by decide⟩
  unfold searchDrinks
  rw [if_neg (by decide)]
  have hf : catalogC8.filter (splitMatch "Monster Ultra") = [dr8] := by decide
  rw [hf, List.mergeSort_singleton]
  decide

theorem takeSortFilter_all {α : Type} (p : α → Bool) (le : α → α → Bool)
    (l : List α) (n : Nat) :
    (((l.filter p).mergeSort le).take n).all p = true := by
  rw [List.all_eq_true]
  intro x hx
  exact (List.mem_filter.mp (List.mem_mergeSort.mp ((List.take_sublist _ _).subset hx))).2

theorem brandLe_trans : ∀ a b c : EnergyDrink,
    brandLe a b = true → brandLe b c = true → brandLe a c = true := by
  intro a b c hab hbc
  simp only [brandLe, decide_eq_true_eq] at hab hbc ⊢
  exact le_trans hab hbc

theorem brandLe_total : ∀ a b : EnergyDrink, (brandLe a b || brandLe b a) = true := by
  intro a b
  simp only [brandLe, Bool.or_eq_true, decide_eq_true_eq]
  exact le_total _ _

theorem brandFlavorLe_trans : ∀ a b c : EnergyDrink,
    brandFlavorLe a b = true → brandFlavorLe b c = true → brandFlavorLe a c = true := by
  intro a b c hab hbc
  unfold brandFlavorLe at hab hbc ⊢
  by_cases h1 : a.brand = b.brand
  · by_cases h2 : b.brand = c.brand
    · rw [if_pos h1, decide_eq_true_eq] at hab
      rw [if_pos h2, decide_eq_true_eq] at hbc
      rw [if_pos (h1.trans h2), decide_eq_true_eq]
      exact le_trans hab hbc
    · have h3 : a.brand ≠ c.brand := by rw [h1]; exact h2
      rw [if_neg h2, decide_eq_true_eq] at hbc
      rw [if_neg h3, decide_eq_true_eq, h1]
      exact hbc
  · by_cases h2 : b.brand = c.brand
    · have h3 : a.brand ≠ c.brand := by rw [← h2]; exact h1
      rw [if_neg h1, decide_eq_true_eq] at hab
      rw [if_neg h3, decide_eq_true_eq, ← h2]
      exact hab
    · rw [if_neg h1, decide_eq_true_eq] at hab
      rw [if_neg h2, decide_eq_true_eq] at hbc
      by_cases h3 : a.brand = c.brand
      · exfalso
        rw [← h3] at hbc
        exact h1 (le_antisymm hab hbc)
      · rw [if_neg h3, decide_eq_true_eq]
        exact le_trans hab hbc

theorem brandFlavorLe_total : ∀ a b : EnergyDrink,
    (brandFlavorLe a b || brandFlavorLe b a) = true := by
  intro a b
  unfold brandFlavorLe
  by_cases h1 : a.brand = b.brand
  · rw [if_pos h1, if_pos h1.symm]
    simp only [Bool.or_eq_true, decide_eq_true_eq]
    exact le_total a.flavor b.flavor
  · rw [if_neg h1, if_neg (fun h => h1 h.symm)]
    simp only [Bool.or_eq_true, decide_eq_true_eq]
    exact le_total a.brand b.brand

/-- C8 (amended): for every catalog and query, the basic autocomplete
returns at most 10 drinks, all matching the query as a case-insensitive
substring of brand or flavor, sorted ascending by brand; the word-splitting
autocomplete returns at most 20 drinks, all satisfying its split-match
condition (full query in brand or flavor, or first word in brand together
with the remaining words in flavor), sorted ascending by brand. -/
theorem search_bounded_sorted_matches (catalog : List EnergyDrink) (q : String) :
    (autocompleteBasic catalog q).length ≤ 10
    ∧ (autocompleteBasic catalog q).all (matchBasic q) = true
    ∧ (autocompleteBasic catalog q).Pairwise (fun a b => a.brand ≤ b.brand)
    ∧ (searchDrinks catalog q).length ≤ 20
    ∧ (searchDrinks catalog q).all (splitMatch q) = true
    ∧ (searchDrinks catalog q).Pairwise (fun a b => a.brand ≤ b.brand) := by
  unfold autocompleteBasic searchDrinks
  by_cases hq : q.length < 1 <;> simp only [hq, if_true, if_false]
  · simp
  · refine ⟨List.length_take_le _ _, takeSortFilter_all _ _ _ _, ?_,
      List.length_take_le _ _, takeSortFilter_all _ _ _ _, ?_⟩
    · have hsorted := List.sorted_mergeSort brandLe_trans brandLe_total
        (catalog.filter (matchBasic q))
      refine (hsorted.sublist (List.take_sublist 10 _)).imp ?_
      intro a b hab
      simpa [brandLe] using hab
    · have hsorted := List.sorted_mergeSort brandFlavorLe_trans brandFlavorLe_total
        (catalog.filter (splitMatch q))
      refine (hsorted.sublist (List.take_sublist 20 _)).imp ?_
      intro a b hab
      unfold brandFlavorLe at hab
      by_cases h1 : a.brand = b.brand
      · exact le_of_eq h1
      · rw [if_neg h1, decide_eq_true_eq] at hab
        exact hab

/-- C9: on a catalog with unique row ids and no duplicate (brand, flavor,
size_ml) triples, an INSERT whose triple already exists and an UPDATE whose
new triple already belongs to another row are both rejected by the UNIQUE
constraint (leaving the catalog unchanged, as the rejected statement
produces no new state), and every accepted INSERT or UPDATE preserves the
no-duplicate-triples invariant. -/
theorem drinks_unique_triple (catalog : List EnergyDrink) (d : EnergyDrink)
    (did : Int) (nb nf : String) (ns : Int)
    (hids : (catalog.map EnergyDrink.id).Nodup)
    (huniq : uniqueTriples catalog) :
    (∀ c', insertDrink catalog d = .ok c' → uniqueTriples c')
    ∧ ((∃ e ∈ catalog, tripleOf e = tripleOf d) →
        insertDrink catalog d = .error "duplicate key value violates unique constraint")
    ∧ (∀ c', updateDrink catalog did nb nf ns = .ok c' → uniqueTriples c')
    ∧ ((∃ e ∈ catalog, e.id ≠ did ∧ tripleOf e = (nb, nf, ns)) →
        updateDrink catalog did nb nf ns = .error "duplicate key value violates unique constraint") := by
  have hPiff : ∀ e : EnergyDrink,
      (e.brand == d.brand && e.flavor == d.flavor && e.size_ml == d.size_ml) = true
        ↔ tripleOf e = tripleOf d := by
    intro e
    simp [tripleOf, Prod.ext_iff, and_assoc]
  have hQiff : ∀ e : EnergyDrink,
      (!(e.id == did) && e.brand == nb && e.flavor == nf && e.size_ml == ns) = true
        ↔ (e.id ≠ did ∧ tripleOf e = (nb, nf, ns)) := by
    intro e
    simp [tripleOf, Prod.ext_iff, and_assoc]
  refine ⟨?_, ?_, ?_, ?_⟩
  · intro c' hok
    unfold insertDrink at hok
    by_cases hany : (catalog.any
        (fun e => e.brand == d.brand && e.flavor == d.flavor && e.size_ml == d.size_ml)) = true
    · rw [if_pos hany] at hok
      cases hok
    · rw [if_neg hany] at hok
      rw [Bool.not_eq_true] at hany
      injection hok with hok
      subst hok
      unfold uniqueTriples
      rw [List.map_append, List.nodup_append]
      refine ⟨huniq, by simp, ?_⟩
      intro x hx hx'
      simp only [List.map_cons, List.map_nil, List.mem_cons, List.not_mem_nil, or_false] at hx'
      obtain ⟨e, he, rfl⟩ := List.mem_map.mp hx
      rw [List.any_eq_false] at hany
      exact hany e he ((hPiff e).mpr hx')
  · rintro ⟨e, he, htr⟩
    unfold insertDrink
    rw [if_pos (List.any_eq_true.mpr ⟨e, he, (hPiff e).mpr htr⟩)]
  · intro c' hok
    unfold updateDrink at hok
    by_cases hany : (catalog.any
        (fun e => !(e.id == did) && e.brand == nb && e.flavor == nf && e.size_ml == ns)) = true
    · rw [if_pos hany] at hok
      cases hok
    · rw [if_neg hany] at hok
      rw [Bool.not_eq_true, List.any_eq_false] at hany
      injection hok with hok
      subst hok
      have hnodup : ∀ e ∈ catalog, e.id ≠ did → tripleOf e ≠ (nb, nf, ns) := by
        intro e he hne htr
        exact hany e he ((hQiff e).mpr ⟨hne, htr⟩)
      have hI : catalog.Pairwise (fun a b => a.id ≠ b.id) := by
        rw [← List.pairwise_map (f := EnergyDrink.id)]
        exact hids
      have hP : catalog.Pairwise (fun a b => tripleOf a ≠ tripleOf b) := by
        rw [← List.pairwise_map (f := tripleOf)]
        exact huniq
      unfold uniqueTriples
      rw [List.map_map]
      show List.Pairwise (fun a b => a ≠ b)
        (List.map (tripleOf ∘ drinkUpdate did nb nf ns) catalog)
      rw [List.pairwise_map]
      refine List.Pairwise.imp_of_mem ?_ (hI.and hP)
      intro a b ha hb hab
      obtain ⟨hid, htr⟩ := hab
      show tripleOf (drinkUpdate did nb nf ns a) ≠ tripleOf (drinkUpdate did nb nf ns b)
      unfold drinkUpdate
      by_cases haid : a.id = did <;> by_cases hbid : b.id = did
      · exact absurd (haid.trans hbid.symm) hid
      · rw [if_pos (beq_iff_eq.mpr haid), if_neg (by simpa using hbid)]
        have htb : tripleOf b ≠ (nb, nf, ns) := hnodup b hb hbid
        exact fun h => htb (Eq.symm h)
      · rw [if_neg (by simpa using haid), if_pos (beq_iff_eq.mpr hbid)]
        have hta : tripleOf a ≠ (nb, nf, ns) := hnodup a ha haid
        exact fun h => hta h
      · rw [if_neg (by simpa using haid), if_neg (by simpa using hbid)]
        exact htr
  · rintro ⟨e, he, hne, htr⟩
    unfold updateDrink
    rw [if_pos (List.any_eq_true.mpr ⟨e, he, (hQiff e).mpr ⟨hne, htr⟩⟩)]

/-- C9 witness: on the two-row catalog `catalog9`, inserting `dupDrink`
(duplicating the triple of `dr1`) is rejected, while inserting `freshDrink`
succeeds and keeps the triples unique. -/
theorem drinks_unique_triple_witness :
    insertDrink catalog9 dupDrink = .error "duplicate key value violates unique constraint"
    ∧ uniqueTriples (catalog9 ++ [freshDrink]) :=
  ⟨(drinks_unique_triple catalog9 dupDrink 0 "" "" 0 (by decide)
        (by unfold uniqueTriples; decide)).2.1
      ⟨dr1, by decide, by decide⟩,
   (drinks_unique_triple catalog9 freshDrink 0 "" "" 0 (by decide)
        (by unfold uniqueTriples; decide)).1
      (catalog9 ++ [freshDrink]) rfl⟩
